import Mathlib

/-!
Verification of the `addon_proxy` caching reverse proxy.

The development shallowly embeds the request pipeline of
`src/proxy/on_request.rs` together with `src/proxy/validations.rs` and the
cache value codec. Strings are modelled as `List Char`, byte buffers as
`List Nat` (each entry a byte value), HTTP header maps as association lists
from a header name to its list of values — exactly the shape `http_serde`
serializes a `HeaderMap` into for a non-human-readable format such as
`bincode`. Calls into external crates (URI parsing, the stremio resource
reference grammar, `cache_control` parsing, the `DefaultHasher` fingerprint
and `bincode::serialize`) are abstracted as fields of an `Externals` record
which the theorems quantify over; concrete fixtures instantiate them in the
closed witness statements.
-/

namespace AddonProxy

/-- Characters of a Rust `&str`, modelled as a list. -/
abbrev Str := List Char

/-- A byte buffer (`Vec<u8>` / `Bytes`); entries are byte values below 256. -/
abbrev Bytes := List Nat

/-- Convenience conversion from a Lean string literal. -/
def str (s : String) : Str := s.toList

/-- Bytes of a character list (each char is ASCII in every use here). -/
def strToBytes (s : Str) : Bytes := s.map Char.toNat

/-- Bytes of a Lean string literal. -/
def strBytes (s : String) : Bytes := strToBytes (str s)

/-! ## Little-endian fixed-width integers (bincode fixint encoding) -/

/-- Write a natural number as `w` little-endian bytes (value taken mod `256 ^ w`),
the fixint integer encoding used by `bincode` with its default options. -/
def natLE : Nat → Nat → Bytes
  | 0, _ => []
  | w + 1, n => n % 256 :: natLE w (n / 256)

/-- Read back a little-endian byte list as a natural number. -/
def natFromLE : Bytes → Nat
  | [] => 0
  | b :: bs => b + 256 * natFromLE bs

/-- Take exactly `k` bytes from the front of the input, returning them and the
unconsumed tail; fails when fewer are available. -/
def readBytes (k : Nat) (bs : Bytes) : Option (Bytes × Bytes) :=
  if k ≤ bs.length then some (bs.take k, bs.drop k) else none

/-- Read a `w`-byte little-endian natural number. -/
def readNatLE (w : Nat) (bs : Bytes) : Option (Nat × Bytes) :=
  (readBytes w bs).map (fun p => (natFromLE p.1, p.2))

/-- Serialize a byte string as a `u64` length prefix followed by its bytes
(`bincode` encoding of `&[u8]` / `&str`). -/
def writeByteStr (s : Bytes) : Bytes := natLE 8 s.length ++ s

/-- Read a length-prefixed byte string. -/
def readByteStr (bs : Bytes) : Option (Bytes × Bytes) :=
  (readNatLE 8 bs).bind (fun p => readBytes p.1 p.2)

/-- Serialize a sequence as a `u64` count followed by the elements back to back
(`bincode` encoding of a seq or map). -/
def writeList {α : Type} (enc : α → Bytes) (xs : List α) : Bytes :=
  natLE 8 xs.length ++ (xs.map enc).flatten

/-- Decode exactly `k` consecutive elements, threading the unconsumed tail. -/
def readCount {α : Type} (read : Bytes → Option (α × Bytes)) :
    Nat → Bytes → Option (List α × Bytes)
  | 0, bs => some ([], bs)
  | k + 1, bs =>
    (read bs).bind (fun p => (readCount read k p.2).map (fun q => (p.1 :: q.1, q.2)))

/-! ## Header names and values

The `http` crate accepts exactly the RFC 7230 token bytes in a header name
(`HeaderName::from_bytes`, folding ASCII uppercase to lowercase) and bytes
9 (tab) or 32..=255 except 127 in a header value (`HeaderValue::from_bytes`).
`http_serde`'s `header_map` deserializer rebuilds every name and value through
those constructors, so decoding fails on any byte outside these sets. -/

/-- Token bytes allowed in a header name: digits, letters, and the RFC 7230
specials. Byte 96 is the grave accent. -/
def isTokenByte (b : Nat) : Bool :=
  (decide (48 ≤ b) && decide (b ≤ 57)) ||
  (decide (97 ≤ b) && decide (b ≤ 122)) ||
  (decide (65 ≤ b) && decide (b ≤ 90)) ||
  (b == 33) || (b == 35) || (b == 36) || (b == 37) || (b == 38) || (b == 39) ||
  (b == 42) || (b == 43) || (b == 45) || (b == 46) || (b == 94) || (b == 95) ||
  (b == 96) || (b == 124) || (b == 126)

/-- Fold an ASCII uppercase byte to lowercase, as `HeaderName::from_bytes` does. -/
def lowerByte (b : Nat) : Nat := if 65 ≤ b ∧ b ≤ 90 then b + 32 else b

/-- Bytes `HeaderValue::from_bytes` accepts: tab, or 32..=255 except DEL. -/
def isValueByte (b : Nat) : Bool :=
  (b == 9) || (decide (32 ≤ b) && (b != 127) && decide (b < 256))

/-- A header map in the shape `http_serde` serializes it: each name paired with
its ordered list of values. -/
abbrev HeaderMap := List (Bytes × List Bytes)

/-- Serialize one header map entry: the name string, then the value sequence. -/
def writeHeaderEntry (e : Bytes × List Bytes) : Bytes :=
  writeByteStr e.1 ++ writeList writeByteStr e.2

/-- Read a header name and rebuild it through `HeaderName::from_bytes`:
nonempty, token bytes only, uppercase folded to lowercase. -/
def readHeaderName (bs : Bytes) : Option (Bytes × Bytes) :=
  (readByteStr bs).bind (fun p =>
    if p.1 ≠ [] ∧ p.1.all isTokenByte then some (p.1.map lowerByte, p.2) else none)

/-- Read a header value and rebuild it through `HeaderValue::from_bytes`. -/
def readHeaderValue (bs : Bytes) : Option (Bytes × Bytes) :=
  (readByteStr bs).bind (fun p => if p.1.all isValueByte then some p else none)

/-- Read one header map entry: name, value count, then the values. -/
def readHeaderEntry (bs : Bytes) : Option ((Bytes × List Bytes) × Bytes) :=
  (readHeaderName bs).bind (fun p =>
    (readNatLE 8 p.2).bind (fun q =>
      (readCount readHeaderValue q.1 q.2).map (fun r => ((p.1, r.1), r.2))))

/-- Serialize a header map: entry count, then the entries. -/
def writeHeaders (hm : HeaderMap) : Bytes := writeList writeHeaderEntry hm

/-- Read a header map: entry count, then that many entries. -/
def readHeaders (bs : Bytes) : Option (HeaderMap × Bytes) :=
  (readNatLE 8 bs).bind (fun p => readCount readHeaderEntry p.1 p.2)

/-! ## The cache value and its codec

The Sled value written by `cache_response` and read back by `handle_cache` and
`handle_origin_fail` is the `bincode` serialization of
`CacheValueForSerialization` from `src/proxy/on_request.rs`: the status code as
a `u16` (via `http_serde::status_code`), the header map (via
`http_serde::header_map`), the body as length-prefixed bytes (via
`serde_bytes`), the write timestamp as an `i64` and the validity in seconds as
a `u32`, in that field order. -/

/-- The cache envelope: the five fields of `CacheValueForDeserialization`. -/
structure CacheValue where
  status : Nat
  headers : HeaderMap
  body : Bytes
  timestamp : Int
  validity : Nat
deriving DecidableEq

/-- Two's-complement little-endian bytes of an `i64`. -/
def i64Bytes (t : Int) : Bytes := natLE 8 (t % (2 ^ 64)).toNat

/-- Recover an `i64` from its unsigned 64-bit representation. -/
def i64OfNat (n : Nat) : Int := if n < 2 ^ 63 then (n : Int) else (n : Int) - 2 ^ 64

/-- Encode a cache value to its stored byte form (`bincode::serialize`). -/
def encodeCacheValue (v : CacheValue) : Bytes :=
  natLE 2 v.status ++ writeHeaders v.headers ++ writeByteStr v.body ++
    i64Bytes v.timestamp ++ natLE 4 v.validity

/-- Decode stored bytes back into a cache value (`bincode::deserialize` of
`CacheValueForDeserialization`). `StatusCode::from_u16` accepts exactly the
range 100..=999; like `bincode::deserialize`, trailing bytes are ignored. -/
def decodeCacheValue (bs : Bytes) : Option CacheValue :=
  (readNatLE 2 bs).bind (fun st =>
    if 100 ≤ st.1 ∧ st.1 ≤ 999 then
      (readHeaders st.2).bind (fun hd =>
        (readByteStr hd.2).bind (fun bd =>
          (readNatLE 8 bd.2).bind (fun ts =>
            (readNatLE 4 ts.2).map (fun va =>
              ⟨st.1, hd.1, bd.1, i64OfNat ts.1, va.1⟩))))
    else none)

/-- A header name as it sits inside an `http::HeaderMap`: nonempty, token
bytes, already lowercase, and short enough for its `u64` length prefix. -/
def validHeaderName (s : Bytes) : Bool :=
  !s.isEmpty && s.all (fun b => isTokenByte b && !(decide (65 ≤ b) && decide (b ≤ 90))) &&
    decide (s.length < 2 ^ 64)

/-- A header value as it sits inside an `http::HeaderMap`. -/
def validHeaderValue (s : Bytes) : Bool :=
  s.all isValueByte && decide (s.length < 2 ^ 64)

/-- One well-formed header map entry. -/
def validHeaderEntry (e : Bytes × List Bytes) : Bool :=
  validHeaderName e.1 && e.2.all validHeaderValue && decide (e.2.length < 2 ^ 64)

/-- A cache value every field of which is representable by the Rust types
`(StatusCode, HeaderMap, Vec<u8>, i64, u32)`. -/
def validCacheValue (v : CacheValue) : Bool :=
  (decide (100 ≤ v.status) && decide (v.status ≤ 999)) &&
  (v.headers.all validHeaderEntry && decide (v.headers.length < 2 ^ 64)) &&
  (v.body.all (fun b => decide (b < 256)) && decide (v.body.length < 2 ^ 64)) &&
  (decide (-(2 ^ 63) ≤ v.timestamp) && decide (v.timestamp < 2 ^ 63)) &&
  decide (v.validity < 2 ^ 32)

/-! ## HTTP data model

Requests and responses are modelled with fully buffered byte bodies: the
pipeline runs after `map_request_body(req, body_to_bytes)` has aggregated the
request body, and `fork_response` buffers the response body before any caching
decision, so bodies are plain byte lists throughout. -/

/-- The parts of an `http::Uri` the pipeline reads. -/
structure Uri where
  host : Option Str
  path : Str
  query : Option Str
deriving DecidableEq

/-- An inbound request after body aggregation (`Request<Bytes>`). -/
structure Request where
  method : Str
  uri : Uri
  headers : HeaderMap
  body : Bytes
deriving DecidableEq

/-- A response with a buffered byte body. -/
structure Response where
  status : Nat
  headers : HeaderMap
  body : Bytes
deriving DecidableEq

/-- Rust `Response::new(body)`: status 200, empty header map. -/
def Response.new (body : Bytes) : Response :=
  { status := 200, headers := [], body := body }

/-- Rust `Response::new(body)` followed by `*response.status_mut() = code`,
the way every error response of the pipeline is built. -/
def errorResponse (status : Nat) (body : Bytes) : Response :=
  { status := status, headers := [], body := body }

/-- A route from `ProxyConfig.routes`. The `to` base is kept in its rendered
string form, which is how `handle_routes` uses it (via `format!`). -/
structure ProxyRoute where
  «from» : Str
  «to» : Str
  validate : Option Bool
deriving DecidableEq

/-- The configuration snapshot `src/proxy/config.rs` loads from TOML. -/
structure ProxyConfig where
  reload_config_url_path : Str
  clear_cache_url_path : Str
  status_url_path : Str
  db_directory : Str
  ip : Str
  default_port : Nat
  cache_enabled : Bool
  default_cache_validity : Nat
  cache_stale_threshold_on_fail : Nat
  timeout : Nat
  routes : List ProxyRoute
  verbose : Bool

/-- The Sled handle at the moment of one request: the outcome of `get` per key
and the outcomes of `insert` and `clear`. Errors carry no data the code reads. -/
structure Db where
  get : Bytes → Except Unit (Option Bytes)
  insert : Bytes → Bytes → Except Unit Unit
  clear : Except Unit Unit

/-- The fingerprint source: method, URI and body of a buffered request. -/
structure CacheKey where
  method : Str
  uri : Uri
  body : Bytes

/-- First value stored under a name, as `HeaderMap::get` returns it. -/
def headerGet (hm : HeaderMap) (name : Bytes) : Option Bytes :=
  (hm.find? (fun e => e.1 == name)).bind (fun e => e.2.head?)

/-- Replace every value under a name with the single given one
(`HeaderMap::insert` drops previous values of the name). -/
def headerInsert (hm : HeaderMap) (name v : Bytes) : HeaderMap :=
  hm.filter (fun e => e.1 != name) ++ [(name, [v])]

/-- Rust `HeaderValue::to_str`: succeeds iff every byte is visible ASCII or tab. -/
def headerValueToStr (bs : Bytes) : Option Str :=
  if bs.all (fun b => (b == 9) || (decide (32 ≤ b) && decide (b < 127))) then
    some (bs.map Char.ofNat)
  else none

/-- Rust `str::trim_start_matches(pat)` on char lists, with explicit fuel; the
pattern is removed from the front repeatedly, for as long as it is a prefix.
`trimStartMatches` supplies fuel `s.length`, enough for every removal since a
nonempty pattern consumes at least one character per step. -/
def trimStartMatchesAux (pat : Str) : Nat → Str → Str
  | 0, s => s
  | fuel + 1, s =>
    if !pat.isEmpty && pat.isPrefixOf s then trimStartMatchesAux pat fuel (s.drop pat.length)
    else s

/-- Rust `str::trim_start_matches` with a string pattern. -/
def trimStartMatches (pat s : Str) : Str := trimStartMatchesAux pat s.length s

/-- Rust `str::trim_start_matches` with a char pattern: drop every leading `c`. -/
def trimStartChar (c : Char) : Str → Str
  | [] => []
  | x :: xs => if x = c then trimStartChar c xs else x :: xs

/-- Removal of the prefix exactly once, following the words of the claim
"`from_str` with the matched `from` prefix removed exactly once" (Rust
`str::strip_prefix`); stated only to compare against the source's
`trim_start_matches`. -/
def stripOnce (pat s : Str) : Str :=
  if pat.isPrefixOf s then s.drop pat.length else s

/-! ## External collaborators

The pipeline calls into crates outside this repository. Each such call is a
field here, quantified over by the theorems. -/

/-- The external crate functions `on_request.rs` calls:
`String::parse::<http::Uri>`, `stremio_core::ResourceRef::from_str` (as a
plain acceptance predicate), the composition of `cache_control` parsing with
`chrono::Duration::num_seconds`, the `DefaultHasher` fingerprint of a
`CacheKey` reduced to 8 big-endian bytes, and `bincode::serialize` (whose
faithful instantiation is `fun v => Except.ok (encodeCacheValue v)`). -/
structure Externals where
  parseUri : Str → Option Uri
  resourceRefOk : Str → Bool
  parseMaxAge : Str → Option Int
  toDbKey : CacheKey → Bytes
  serialize : CacheValue → Except Unit Bytes

/-! ## validations.rs -/

/-- Request validation from `src/proxy/validations.rs`: accept the manifest,
root, `/public...`, `/images...` paths, otherwise whatever parses as a
stremio resource reference. The request argument is unused by the source. -/
def validate_request (ext : Externals) (_req : Request) (path : Str) : Bool :=
  if path = str "/manifest.json" ∨ path = str "/" ∨ path = [] then true
  else if (str "/public").isPrefixOf path then true
  else if (str "/images").isPrefixOf path then true
  else ext.resourceRefOk path

/-- Response validation from `src/proxy/validations.rs`:
`response.status().is_success()`, the 2xx range. -/
def validate_response (response : Response) : Bool :=
  decide (200 ≤ response.status) && decide (response.status ≤ 299)

/-! ## on_request.rs -/

/-- Modelled from the spec: `landing.html` (embedded with `include_bytes!`) is
not among the provided sources; section 4.4 of the spec treats it as an opaque
static landing document, so its content is an opaque byte constant here. -/
def landingHtml : Bytes := strBytes "<static landing document>"

/-- Modelled from the spec: `clone_request` is imported from `hyper_helpers`
but absent from the provided sources; spec section 4.6 step (a) says the
dispatcher "keeps a clone of the pre-send request", so it is the identity copy
of the buffered request record. -/
def clone_request (req : Request) : Request := req

/-- Clone of a buffered response (`hyper_helpers::clone_response`; extensions,
which the model does not carry, are the one part Rust cannot clone). -/
def clone_response (response : Response) : Response :=
  { status := response.status, headers := response.headers, body := response.body }

/-- Fork of a response (`hyper_helpers::fork_response`): the body is already
buffered in the model, so the fork is the clone paired with the byte-body
original. -/
def fork_response (response : Response) : Response × Response :=
  (clone_response response, response)

/-- Try `u32::try_from` on an `i64` value: succeeds iff it is a non-negative
integer below `2 ^ 32`. -/
def u32TryFromInt (n : Int) : Option Nat :=
  if 0 ≤ n ∧ n < 2 ^ 32 then some n.toNat else none

/-- The TTL of a response (`validity_from_response`): the `Cache-Control:
max-age` seconds when the header is present, readable as a string, parseable,
and convertible to `u32`; otherwise `default_cache_validity`. -/
def validity_from_response (ext : Externals) (response : Response)
    (proxy_config : ProxyConfig) : Nat :=
  ((((headerGet response.headers (strBytes "cache-control")).bind
    headerValueToStr).bind ext.parseMaxAge).bind u32TryFromInt).getD
    proxy_config.default_cache_validity

/-- Cache a validated origin response (`cache_response`): fork it, serialize
the envelope with the current timestamp and computed validity, try to insert
it, and return the client copy; serialization and insert failures only log. -/
def cache_response (ext : Externals) (response : Response) (response_db_key : Bytes)
    (proxy_config : ProxyConfig) (db : Db) (now : Int) : Response :=
  let forked := fork_response response
  let response := forked.1
  let response_with_byte_body := forked.2
  match ext.serialize
    { status := response_with_byte_body.status,
      headers := response_with_byte_body.headers,
      body := response_with_byte_body.body,
      timestamp := now,
      validity := validity_from_response ext response proxy_config } with
  | Except.error _ => response
  | Except.ok cache_value =>
    match db.insert response_db_key cache_value with
    | Except.error _ => response
    | Except.ok _ => response

/-- The origin failure fallback (`handle_origin_fail`): read the cache entry
for the failed request; serve it unless it is older than
`cache_stale_threshold_on_fail` seconds, in which case (or when absent, or
unreadable) answer 500 with the corresponding message. -/
def handle_origin_fail (ext : Externals) (req : Request) (proxy_config : ProxyConfig)
    (db : Db) (now : Int) : Response :=
  let cache_key : CacheKey := { method := req.method, uri := req.uri, body := req.body }
  match db.get (ext.toDbKey cache_key) with
  | Except.ok (some cached) =>
    match decodeCacheValue cached with
    | some cached_response =>
      if now - cached_response.timestamp > (proxy_config.cache_stale_threshold_on_fail : Int) then
        errorResponse 500 (strBytes "No valid response. Cached response too old.")
      else
        { status := cached_response.status, headers := cached_response.headers,
          body := cached_response.body }
    | none => errorResponse 500 (strBytes "Cannot deserialize a cached response.")
  | Except.ok none => errorResponse 500 (strBytes "No valid response.")
  | Except.error _ => errorResponse 500 (strBytes "Cannot read from the cache.")

/-- Origin dispatch (`send_request_and_handle_response`): compute the cache
key, keep a clone for the fallback, send the request (the origin outcome is
the `client` argument), then either fall back, return the response uncached,
or cache it. -/
def send_request_and_handle_response (ext : Externals)
    (client : Request → Except Unit Response) (req : Request)
    (proxy_config : ProxyConfig) (db : Db) (now : Int) : Response :=
  let response_db_key := ext.toDbKey { method := req.method, uri := req.uri, body := req.body }
  let req_clone := clone_request req
  match client req with
  | Except.ok response =>
    if !validate_response response then
      handle_origin_fail ext req_clone proxy_config db now
    else if !proxy_config.cache_enabled then
      response
    else
      cache_response ext response response_db_key proxy_config db now
  | Except.error _ => handle_origin_fail ext req_clone proxy_config db now

/-- Reload endpoint (`handle_config_reload`): on exact path match, schedule a
reload (a side signal the model does not carry) and short-circuit with 200. -/
def handle_config_reload (req : Request) (proxy_config : ProxyConfig) :
    Except Response Request :=
  if req.uri.path = proxy_config.reload_config_url_path then
    Except.error (Response.new (strBytes "Proxy config reload scheduled."))
  else Except.ok req

/-- Clear endpoint (`handle_clear_cache`): on exact path match, clear the
store and short-circuit with 200 and the success or failure text. -/
def handle_clear_cache (req : Request) (proxy_config : ProxyConfig) (db : Db) :
    Except Response Request :=
  if req.uri.path = proxy_config.clear_cache_url_path then
    match db.clear with
    | Except.error _ => Except.error (Response.new (strBytes "Cache clearing failed."))
    | Except.ok _ => Except.error (Response.new (strBytes "Cache cleared."))
  else Except.ok req

/-- Status endpoint (`handle_status`): on exact path match, short-circuit. -/
def handle_status (req : Request) (proxy_config : ProxyConfig) :
    Except Response Request :=
  if req.uri.path = proxy_config.status_url_path then
    Except.error (Response.new (strBytes "Proxy is ready."))
  else Except.ok req

/-- The candidate string the router matches against (the local variable
`from` of `handle_routes`): the host — from the URI, else from the `host`
header when it reads as a string, else empty — concatenated with the path and
the query, with no separators. -/
def from_str (req : Request) : Str :=
  let host := (req.uri.host.orElse
    (fun _ => (headerGet req.headers (strBytes "host")).bind headerValueToStr)).getD []
  host ++ req.uri.path ++ req.uri.query.getD []

/-- Routing (`handle_routes`): build `host + path + query`, pick the first
route whose `from` is a prefix of it, answer the landing page or 404 when none
matches, validate, rewrite the URI to `route.«to»` plus the trimmed suffix, and
replace the `host` header with the new URI's host (a URI host is always a
valid header value, so `host.parse::<HeaderValue>()` cannot fail). -/
def handle_routes (ext : Externals) (req : Request) (proxy_config : ProxyConfig) :
    Except Response Request :=
  let uri := req.uri
  let fromStr := from_str req
  match proxy_config.routes.find? (fun route => route.«from».isPrefixOf fromStr) with
  | none =>
    if uri.path = str "/" then
      Except.error (Response.new landingHtml)
    else
      Except.error
        (errorResponse 404 (strBytes "404. The requested URL was not found on this server."))
  | some route =>
    let routed_path_and_query := trimStartMatches route.«from» fromStr
    if route.validate ≠ some false ∧ !validate_request ext req routed_path_and_query then
      Except.error (errorResponse 400 (strBytes "Invalid request."))
    else
      match ext.parseUri (route.«to» ++ trimStartChar '/' routed_path_and_query) with
      | none => Except.error (errorResponse 500 (strBytes "Cannot route to invalid URI."))
      | some newUri =>
        match newUri.host with
        | some h =>
          Except.ok
            { req with
              uri := newUri,
              headers := headerInsert req.headers (strBytes "host") (strToBytes h) }
        | none =>
          Except.error (errorResponse 500 (strBytes "Cannot route to URI without host."))

/-- Cache lookup (`handle_cache`): read the entry under the request's
fingerprint; a fresh decoded hit short-circuits with the reconstructed
response, a stale hit or a miss passes the request through, and a decode or
store failure short-circuits with 500. -/
def handle_cache (ext : Externals) (req : Request) (db : Db) (_verbose : Bool)
    (now : Int) : Except Response Request :=
  let cache_key : CacheKey := { method := req.method, uri := req.uri, body := req.body }
  match db.get (ext.toDbKey cache_key) with
  | Except.ok (some cached) =>
    match decodeCacheValue cached with
    | some cached_response =>
      if now > cached_response.timestamp + (cached_response.validity : Int) then
        Except.ok req
      else
        Except.error
          { status := cached_response.status,
            headers := cached_response.headers,
            body := cached_response.body }
    | none => Except.error (errorResponse 500 (strBytes "Cannot deserialize a cached response."))
  | Except.ok none => Except.ok req
  | Except.error _ => Except.error (errorResponse 500 (strBytes "Cannot read from the cache."))

/-- The middleware pipeline (`apply_request_middlewares`), in source order:
reload, clear, status, routes, then — only when `cache_enabled` — the cache
lookup. -/
def apply_request_middlewares (ext : Externals) (req : Request)
    (proxy_config : ProxyConfig) (db : Db) (now : Int) : Except Response Request := do
  let req ← handle_config_reload req proxy_config
  let req ← handle_clear_cache req proxy_config db
  let req ← handle_status req proxy_config
  let req ← handle_routes ext req proxy_config
  if proxy_config.cache_enabled then
    handle_cache ext req db proxy_config.verbose now
  else
    pure req

/-- Per-request entry point (`on_request`): run the pipeline; a short-circuit
response is returned as is, otherwise the surviving request is dispatched. -/
def on_request (ext : Externals) (client : Request → Except Unit Response)
    (req : Request) (proxy_config : ProxyConfig) (db : Db) (now : Int) : Response :=
  match apply_request_middlewares ext req proxy_config db now with
  | Except.error response => response
  | Except.ok req => send_request_and_handle_response ext client req proxy_config db now

/-! ## Fixtures

Concrete instantiations used only by the closed witness and counterexample
statements: a minimal URI parser covering the `http://host/path` strings that
appear there, trivial stand-ins for the remaining external calls, and sample
requests, configurations and store states. -/

/-- Minimal parser fixture for concrete `http://host/path` strings. -/
def parseUriFixture (s : Str) : Option Uri :=
  if (str "http://").isPrefixOf s then
    let rest := s.drop 7
    let host := rest.takeWhile (fun c => c ≠ '/')
    let path := rest.dropWhile (fun c => c ≠ '/')
    some { host := if host = [] then none else some host,
           path := if path = [] then str "/" else path,
           query := none }
  else none

/-- External-call fixture: the minimal URI parser, a rejecting resource
reference grammar, no parseable max-age, a constant fingerprint, and the
faithful `bincode` serializer. -/
def extFixture : Externals :=
  { parseUri := parseUriFixture,
    resourceRefOk := fun _ => false,
    parseMaxAge := fun _ => none,
    toDbKey := fun _ => strBytes "k",
    serialize := fun v => Except.ok (encodeCacheValue v) }

/-- External-call fixture recognizing exactly `max-age=300`. -/
def extMaxAge : Externals :=
  { extFixture with
    parseMaxAge := fun s => if s = str "max-age=300" then some (300 : Int) else none }

/-- A sample cached envelope. -/
def cv0 : CacheValue :=
  { status := 200,
    headers := [(strBytes "content-type", [strBytes "text/plain"])],
    body := strBytes "hello",
    timestamp := 1000,
    validity := 600 }

/-- A sample request addressed to an origin. -/
def req0 : Request :=
  { method := str "GET",
    uri := { host := some (str "example.com"), path := str "/x", query := none },
    headers := [],
    body := [] }

/-- A request for the reload endpoint of `cfg0`. -/
def reqReload : Request :=
  { req0 with uri := { host := none, path := str "/reload-proxy-config", query := none } }

/-- A request for the clear-cache endpoint of `cfg0`. -/
def reqClear : Request :=
  { req0 with uri := { host := none, path := str "/clear-cache", query := none } }

/-- A request for the status endpoint of `cfg0`. -/
def reqStatus : Request :=
  { req0 with uri := { host := none, path := str "/status", query := none } }

/-- A request no route of `cfg0` or `cfgRouted` matches. -/
def reqMiss : Request :=
  { req0 with uri := { host := none, path := str "/bogus", query := none } }

/-- A rootless request (path `/`) no route matches. -/
def reqRoot : Request :=
  { req0 with uri := { host := none, path := str "/", query := none } }

/-- A request whose candidate string `/a/a/b` repeats the `/a` route prefix. -/
def reqRepeat : Request :=
  { req0 with uri := { host := none, path := str "/a/a/b", query := none } }

/-- A route with prefix `/a`, base `http://h/` and validation disabled. -/
def routeA : ProxyRoute :=
  { «from» := str "/a", «to» := str "http://h/", validate := some false }

/-- The default configuration of the repository's own test suite
(`default_proxy_config` in `on_request.rs`), with no routes. -/
def cfg0 : ProxyConfig :=
  { reload_config_url_path := str "/reload-proxy-config",
    clear_cache_url_path := str "/clear-cache",
    status_url_path := str "/status",
    db_directory := str "proxy_db",
    ip := str "0.0.0.0",
    default_port := 5000,
    cache_enabled := false,
    default_cache_validity := 600,
    cache_stale_threshold_on_fail := 172800,
    timeout := 20,
    routes := [],
    verbose := false }

/-- The default configuration with caching enabled. -/
def cfgCache : ProxyConfig := { cfg0 with cache_enabled := true }

/-- The default configuration with the single route `routeA`. -/
def cfgRouted : ProxyConfig := { cfg0 with routes := [routeA] }

/-- An empty store that accepts writes. -/
def dbEmpty : Db :=
  { get := fun _ => Except.ok none,
    insert := fun _ _ => Except.ok (),
    clear := Except.ok () }

/-- A store holding the encoding of `cv0` under every key. -/
def dbCv : Db :=
  { get := fun _ => Except.ok (some (encodeCacheValue cv0)),
    insert := fun _ _ => Except.ok (),
    clear := Except.ok () }

/-- A store whose clear operation fails. -/
def dbClearFail : Db := { dbEmpty with clear := Except.error () }

/-- An origin whose send always errors (timeout, refused connection). -/
def clientFail : Request → Except Unit Response := fun _ => Except.error ()

/-- A sample successful origin response. -/
def resp0 : Response := { status := 200, headers := [], body := strBytes "ok" }

/-- An origin that always answers `resp0`. -/
def clientOk : Request → Except Unit Response := fun _ => Except.ok resp0

/-- A response carrying `Cache-Control: max-age=300`. -/
def respMaxAge : Response :=
  { status := 200,
    headers := [(strBytes "cache-control", [strBytes "max-age=300"])],
    body := [] }

/-- The outbound URI the fixture parser produces for `http://h/b`. -/
def uriB : Uri := { host := some (str "h"), path := str "/b", query := none }

/-! ## Codec round-trip lemmas -/

theorem natLE_length (w n : Nat) : (natLE w n).length = w := by
  induction w generalizing n with
  | zero => rfl
  | succ w ih => simp [natLE, ih]

theorem natFromLE_natLE (w n : Nat) : natFromLE (natLE w n) = n % 256 ^ w := by
  induction w generalizing n with
  | zero => simp [natLE, natFromLE, Nat.mod_one]
  | succ w ih =>
    simp only [natLE, natFromLE, ih]
    rw [pow_succ, mul_comm (256 ^ w) 256, Nat.mod_mul]

theorem pow256_two : (256 : Nat) ^ 2 = 2 ^ 16 := by norm_num

theorem pow256_four : (256 : Nat) ^ 4 = 2 ^ 32 := by norm_num

theorem pow256_eight : (256 : Nat) ^ 8 = 2 ^ 64 := by norm_num

theorem readBytes_append (xs rest : Bytes) :
    readBytes xs.length (xs ++ rest) = some (xs, rest) := by
  simp [readBytes, List.take_left, List.drop_left]

theorem readNatLE_append (w n : Nat) (rest : Bytes) (h : n < 256 ^ w) :
    readNatLE w (natLE w n ++ rest) = some (n, rest) := by
  have hb : readBytes (natLE w n).length (natLE w n ++ rest) = some (natLE w n, rest) :=
    readBytes_append _ _
  rw [natLE_length] at hb
  unfold readNatLE
  rw [hb]
  simp [natFromLE_natLE, Nat.mod_eq_of_lt h]

theorem readByteStr_append (s rest : Bytes) (h : s.length < 2 ^ 64) :
    readByteStr (writeByteStr s ++ rest) = some (s, rest) := by
  unfold readByteStr writeByteStr
  rw [List.append_assoc,
    readNatLE_append 8 s.length (s ++ rest) (by rw [pow256_eight]; exact h)]
  simp [readBytes_append]

theorem readCount_append {α : Type} (read : Bytes → Option (α × Bytes)) (enc : α → Bytes)
    (xs : List α) :
    ∀ rest : Bytes, (∀ x ∈ xs, ∀ r, read (enc x ++ r) = some (x, r)) →
      readCount read xs.length ((xs.map enc).flatten ++ rest) = some (xs, rest) := by
  induction xs with
  | nil =>
    intro rest _
    rfl
  | cons x xs ih =>
    intro rest h
    simp only [List.map_cons, List.flatten_cons, List.length_cons, List.append_assoc, readCount]
    rw [h x (List.mem_cons_self x xs)]
    simp only [Option.some_bind]
    rw [ih rest (fun y hy r => h y (List.mem_cons_of_mem x hy) r)]
    rfl

theorem map_lowerByte_id (s : Bytes)
    (h : s.all (fun b => isTokenByte b && !(decide (65 ≤ b) && decide (b ≤ 90))) = true) :
    s.map lowerByte = s := by
  induction s with
  | nil => rfl
  | cons b bs ih =>
    simp only [List.all_cons, Bool.and_eq_true] at h
    have hb : ¬(65 ≤ b ∧ b ≤ 90) := by
      have := h.1
      simp only [Bool.and_eq_true, Bool.not_eq_true', Bool.and_eq_false_iff,
        decide_eq_false_iff_not] at this
      rcases this.2 with hc | hc
      · exact fun hx => hc hx.1
      · exact fun hx => hc hx.2
    simp [lowerByte, hb, ih h.2]

theorem readHeaderValue_append (s rest : Bytes) (h : validHeaderValue s = true) :
    readHeaderValue (writeByteStr s ++ rest) = some (s, rest) := by
  unfold validHeaderValue at h
  simp only [Bool.and_eq_true, decide_eq_true_eq] at h
  unfold readHeaderValue
  rw [readByteStr_append s rest h.2]
  simp only [Option.some_bind]
  rw [if_pos h.1]

theorem readHeaderName_append (s rest : Bytes) (h : validHeaderName s = true) :
    readHeaderName (writeByteStr s ++ rest) = some (s, rest) := by
  unfold validHeaderName at h
  simp only [Bool.and_eq_true] at h
  obtain ⟨⟨hne, htok⟩, hlen⟩ := h
  unfold readHeaderName
  rw [readByteStr_append s rest (by simpa using hlen)]
  have hs : s ≠ [] := by
    cases s with
    | nil => simp [List.isEmpty] at hne
    | cons a l => simp
  have htokbool : s.all isTokenByte = true := by
    refine List.all_eq_true.mpr (fun b hb => ?_)
    have hx := List.all_eq_true.mp htok b hb
    simp only [Bool.and_eq_true] at hx
    exact hx.1
  simp only [Option.some_bind]
  rw [if_pos (And.intro hs htokbool), map_lowerByte_id s htok]

theorem readHeaderEntry_append (e : Bytes × List Bytes) (rest : Bytes)
    (h : validHeaderEntry e = true) :
    readHeaderEntry (writeHeaderEntry e ++ rest) = some (e, rest) := by
  unfold validHeaderEntry at h
  simp only [Bool.and_eq_true] at h
  obtain ⟨⟨hname, hvals⟩, hcnt⟩ := h
  unfold readHeaderEntry writeHeaderEntry writeList
  simp only [List.append_assoc]
  rw [readHeaderName_append e.1 _ hname]
  simp only [Option.some_bind]
  rw [readNatLE_append 8 e.2.length _ (by rw [pow256_eight]; simpa using hcnt)]
  simp only [Option.some_bind]
  rw [readCount_append readHeaderValue writeByteStr e.2 rest
    (fun v hv r => readHeaderValue_append v r (List.all_eq_true.mp hvals v hv))]
  rfl

theorem readHeaders_append (hm : HeaderMap) (rest : Bytes)
    (hall : hm.all validHeaderEntry = true) (hlen : hm.length < 2 ^ 64) :
    readHeaders (writeHeaders hm ++ rest) = some (hm, rest) := by
  unfold readHeaders writeHeaders writeList
  simp only [List.append_assoc]
  rw [readNatLE_append 8 hm.length _ (by rw [pow256_eight]; exact hlen)]
  simp only [Option.some_bind]
  rw [readCount_append readHeaderEntry writeHeaderEntry hm rest
    (fun e he r => readHeaderEntry_append e r (List.all_eq_true.mp hall e he))]

theorem i64_roundtrip (t : Int) (h1 : -(2 ^ 63) ≤ t) (h2 : t < 2 ^ 63) :
    i64OfNat ((t % (2 ^ 64)).toNat) = t := by
  unfold i64OfNat
  split <;> omega

/-- Round-trip of the cache value codec: decoding the bytes written for any
representable cache value returns it unchanged in all five fields. -/
theorem decodeCacheValue_encodeCacheValue (v : CacheValue)
    (h : validCacheValue v = true) :
    decodeCacheValue (encodeCacheValue v) = some v := by
  obtain ⟨st, hd, bd, ts, va⟩ := v
  unfold validCacheValue at h
  simp only [Bool.and_eq_true, decide_eq_true_eq] at h
  obtain ⟨⟨⟨⟨⟨hs1, hs2⟩, hhdr, hhlen⟩, _hbody, hblen⟩, ht1, ht2⟩, hval⟩ := h
  unfold encodeCacheValue decodeCacheValue
  simp only [List.append_assoc]
  rw [readNatLE_append 2 st _ (by rw [pow256_two]; omega)]
  simp only [Option.some_bind]
  rw [if_pos (And.intro hs1 hs2)]
  rw [readHeaders_append hd _ hhdr hhlen]
  simp only [Option.some_bind]
  rw [readByteStr_append bd _ hblen]
  simp only [Option.some_bind]
  unfold i64Bytes
  rw [readNatLE_append 8 _ _ (by rw [pow256_eight]; omega)]
  simp only [Option.some_bind]
  have hfin : readNatLE 4 (natLE 4 va) = some (va, []) := by
    have hx := readNatLE_append 4 va [] (by rw [pow256_four]; exact hval)
    simpa using hx
  rw [hfin]
  simp only [Option.map_some']
  rw [i64_roundtrip ts ht1 ht2]

/-! ## Claims -/

/-- C1: for every request reaching the cache lookup whose key is present in
the store and whose stored bytes decode, the lookup short-circuits with a
response carrying exactly the cached status, headers and body iff
`now - timestamp ≤ validity`; when `now - timestamp > validity` the request is
passed on unchanged. -/
theorem C1_cache_lookup_freshness (ext : Externals) (req : Request) (db : Db)
    (verbose : Bool) (now : Int) (stored : Bytes) (cv : CacheValue)
    (hget : db.get (ext.toDbKey { method := req.method, uri := req.uri, body := req.body }) =
      Except.ok (some stored))
    (hdec : decodeCacheValue stored = some cv) :
    (handle_cache ext req db verbose now =
        Except.error { status := cv.status, headers := cv.headers, body := cv.body } ↔
      now - cv.timestamp ≤ (cv.validity : Int)) ∧
    (now - cv.timestamp > (cv.validity : Int) →
      handle_cache ext req db verbose now = Except.ok req) := by
  simp only [handle_cache, hget, hdec]
  split_ifs with h
  · refine ⟨⟨fun hx => absurd hx (by simp), fun hx => ?_⟩, fun _ => rfl⟩
    exfalso
    omega
  · refine ⟨⟨fun _ => by omega, fun _ => rfl⟩, fun hx => ?_⟩
    exfalso
    omega

/-- C1 witness: at time 1100 the stored `cv0` (written at 1000, valid 600
seconds) is fresh and the lookup short-circuits with it. -/
theorem C1_cache_lookup_freshness_witness :
    decodeCacheValue (encodeCacheValue cv0) = some cv0 ∧
    ((handle_cache extFixture req0 dbCv false 1100 =
        Except.error { status := cv0.status, headers := cv0.headers, body := cv0.body } ↔
      (1100 : Int) - cv0.timestamp ≤ (cv0.validity : Int)) ∧
    ((1100 : Int) - cv0.timestamp > (cv0.validity : Int) →
      handle_cache extFixture req0 dbCv false 1100 = Except.ok req0)) :=
  ⟨by decide,
    C1_cache_lookup_freshness extFixture req0 dbCv false 1100 (encodeCacheValue cv0) cv0
      rfl (by decide)⟩

/-- C2: on origin send error or a non-2xx origin response the dispatcher runs
the fallback lookup: a present, decoding entry within
`cache_stale_threshold_on_fail` is returned as stored; one beyond the
threshold yields 500 "No valid response. Cached response too old."; a missing
entry yields 500 "No valid response." -/
theorem C2_stale_fallback (ext : Externals) (client : Request → Except Unit Response)
    (req : Request) (proxy_config : ProxyConfig) (db : Db) (now : Int)
    (hfail : client req = Except.error () ∨
      ∃ r, client req = Except.ok r ∧ validate_response r = false) :
    send_request_and_handle_response ext client req proxy_config db now =
      handle_origin_fail ext req proxy_config db now ∧
    (∀ stored cv,
      db.get (ext.toDbKey { method := req.method, uri := req.uri, body := req.body }) =
        Except.ok (some stored) →
      decodeCacheValue stored = some cv →
      ((now - cv.timestamp ≤ (proxy_config.cache_stale_threshold_on_fail : Int) →
        send_request_and_handle_response ext client req proxy_config db now =
          { status := cv.status, headers := cv.headers, body := cv.body }) ∧
       (now - cv.timestamp > (proxy_config.cache_stale_threshold_on_fail : Int) →
        send_request_and_handle_response ext client req proxy_config db now =
          errorResponse 500 (strBytes "No valid response. Cached response too old.")))) ∧
    (db.get (ext.toDbKey { method := req.method, uri := req.uri, body := req.body }) =
        Except.ok none →
      send_request_and_handle_response ext client req proxy_config db now =
        errorResponse 500 (strBytes "No valid response.")) := by
  have heq : send_request_and_handle_response ext client req proxy_config db now =
      handle_origin_fail ext req proxy_config db now := by
    rcases hfail with hc | ⟨r, hc, hv⟩
    · simp [send_request_and_handle_response, clone_request, hc]
    · simp [send_request_and_handle_response, clone_request, hc, hv]
  refine ⟨heq, fun stored cv hget hdec => ?_, fun hget => ?_⟩
  · rw [heq]
    simp only [handle_origin_fail, hget, hdec]
    split_ifs with h
    · exact ⟨fun hx => absurd h (by omega), fun _ => rfl⟩
    · exact ⟨fun _ => rfl, fun hx => absurd hx (by omega)⟩
  · rw [heq]
    simp only [handle_origin_fail, hget, errorResponse]

/-- C2 witness: a failing origin with an empty store answers
500 "No valid response." -/
theorem C2_stale_fallback_witness :
    send_request_and_handle_response extFixture clientFail req0 cfg0 dbEmpty 5 =
      errorResponse 500 (strBytes "No valid response.") :=
  (C2_stale_fallback extFixture clientFail req0 cfg0 dbEmpty 5 (Or.inl rfl)).2.2 rfl

/-- C9: the fallback lookup is performed even when `cache_enabled` is false:
the fallback result never depends on `cache_enabled`, and with caching
disabled a stale-usable entry is still returned on origin failure. -/
theorem C9_fallback_ignores_cache_enabled (ext : Externals)
    (client : Request → Except Unit Response) (req : Request)
    (proxy_config : ProxyConfig) (db : Db) (now : Int)
    (_hdisabled : proxy_config.cache_enabled = false)
    (hfail : client req = Except.error () ∨
      ∃ r, client req = Except.ok r ∧ validate_response r = false) :
    send_request_and_handle_response ext client req proxy_config db now =
      handle_origin_fail ext req proxy_config db now ∧
    (∀ b : Bool,
      handle_origin_fail ext req { proxy_config with cache_enabled := b } db now =
        handle_origin_fail ext req proxy_config db now) ∧
    (∀ stored cv,
      db.get (ext.toDbKey { method := req.method, uri := req.uri, body := req.body }) =
        Except.ok (some stored) →
      decodeCacheValue stored = some cv →
      now - cv.timestamp ≤ (proxy_config.cache_stale_threshold_on_fail : Int) →
      send_request_and_handle_response ext client req proxy_config db now =
        { status := cv.status, headers := cv.headers, body := cv.body }) := by
  have heq : send_request_and_handle_response ext client req proxy_config db now =
      handle_origin_fail ext req proxy_config db now := by
    rcases hfail with hc | ⟨r, hc, hv⟩
    · simp [send_request_and_handle_response, clone_request, hc]
    · simp [send_request_and_handle_response, clone_request, hc, hv]
  refine ⟨heq, fun b => rfl, fun stored cv hget hdec hle => ?_⟩
  rw [heq]
  simp only [handle_origin_fail, hget, hdec]
  rw [if_neg (by omega)]

/-- C9 witness: with `cache_enabled = false`, a failing origin and the stored
`cv0` written at 1000, the request at time 2000 is answered from the stale
cache. -/
theorem C9_fallback_ignores_cache_enabled_witness :
    cfg0.cache_enabled = false ∧
    send_request_and_handle_response extFixture clientFail req0 cfg0 dbCv 2000 =
      { status := cv0.status, headers := cv0.headers, body := cv0.body } :=
  ⟨rfl,
    (C9_fallback_ignores_cache_enabled extFixture clientFail req0 cfg0 dbCv 2000 rfl
      (Or.inl rfl)).2.2 (encodeCacheValue cv0) cv0 rfl (by decide) (by decide)⟩

/-- C3 counterexample: with route `from = "/a"` and candidate string
`/a/a/b`, the source removes the prefix repeatedly (`trim_start_matches`),
composing `http://h/` with suffix `b`; removing it exactly once, as the claim
states, would compose `http://h/` with `a/b` and parse to a different URI. -/
theorem C3_route_rewrite_counterexample :
    handle_routes extFixture reqRepeat cfgRouted =
      Except.ok
        { reqRepeat with
          uri := uriB,
          headers := headerInsert reqRepeat.headers (strBytes "host") (strBytes "h") } ∧
    parseUriFixture
        (routeA.«to» ++ trimStartChar '/' (stripOnce routeA.«from» (from_str reqRepeat))) =
      some { host := some (str "h"), path := str "/a/b", query := none } ∧
    uriB ≠ { host := some (str "h"), path := str "/a/b", query := none } :=
  ⟨rfl, rfl, by decide⟩

/-- C3 (amended): when a route matches and validation passes, the outbound URI
is `route.to` concatenated with the suffix, where the suffix is `from_str`
with the matched `from` prefix removed repeatedly (every leading occurrence,
leading slash otherwise preserved) and every leading slash then trimmed; and
the `host` header is replaced with the outbound URI's host. -/
theorem C3_route_rewrite (ext : Externals) (req : Request) (cfg : ProxyConfig)
    (route : ProxyRoute) (u : Uri) (h : Str)
    (hfind : cfg.routes.find? (fun r => r.«from».isPrefixOf (from_str req)) = some route)
    (hval : route.validate = some false ∨
      validate_request ext req (trimStartMatches route.«from» (from_str req)) = true)
    (hparse : ext.parseUri
        (route.«to» ++ trimStartChar '/' (trimStartMatches route.«from» (from_str req))) =
      some u)
    (hhost : u.host = some h) :
    handle_routes ext req cfg =
      Except.ok
        { req with
          uri := u,
          headers := headerInsert req.headers (strBytes "host") (strToBytes h) } := by
  have hcond : ¬(route.validate ≠ some false ∧
      (!validate_request ext req (trimStartMatches route.«from» (from_str req))) = true) := by
    rcases hval with hv | hv
    · exact fun hx => hx.1 hv
    · intro hx
      rw [hv] at hx
      simp at hx
  simp only [handle_routes, hfind]
  rw [if_neg hcond]
  simp only [hparse, hhost]

/-- C3 witness: the amended rewrite at the concrete repeated-prefix input. -/
theorem C3_route_rewrite_witness :
    cfgRouted.routes.find? (fun r => r.«from».isPrefixOf (from_str reqRepeat)) = some routeA ∧
    handle_routes extFixture reqRepeat cfgRouted =
      Except.ok
        { reqRepeat with
          uri := uriB,
          headers :=
            headerInsert reqRepeat.headers (strBytes "host") (strToBytes (str "h")) } :=
  ⟨rfl,
    C3_route_rewrite extFixture reqRepeat cfgRouted routeA uriB (str "h")
      rfl (Or.inl rfl) rfl rfl⟩

/-- C7 counterexample: at the unrouted path `/bogus` the code answers 404 with
body "404. The requested URL was not found on this server." — not the body the
claim states, which lacks the leading "404. ". -/
theorem C7_no_route_counterexample :
    cfg0.routes.find? (fun route => route.«from».isPrefixOf (from_str reqMiss)) = none ∧
    reqMiss.uri.path ≠ str "/" ∧
    handle_routes extFixture reqMiss cfg0 =
      Except.error (errorResponse 404
        (strBytes "404. The requested URL was not found on this server.")) ∧
    strBytes "404. The requested URL was not found on this server." ≠
      strBytes "The requested URL was not found on this server." :=
  ⟨rfl, by decide, rfl, by decide⟩

/-- C7 (amended): when no route's `from` is a prefix of the candidate string,
path `/` yields 200 with the static landing document and any other path yields
404 with body "404. The requested URL was not found on this server." -/
theorem C7_no_route (ext : Externals) (req : Request) (cfg : ProxyConfig)
    (hmiss : cfg.routes.find? (fun route => route.«from».isPrefixOf (from_str req)) = none) :
    (req.uri.path = str "/" →
      handle_routes ext req cfg = Except.error (Response.new landingHtml)) ∧
    (req.uri.path ≠ str "/" →
      handle_routes ext req cfg = Except.error (errorResponse 404
        (strBytes "404. The requested URL was not found on this server."))) := by
  constructor
  · intro h
    simp only [handle_routes, hmiss]
    rw [if_pos h]
  · intro h
    simp only [handle_routes, hmiss]
    rw [if_neg h]

/-- C7 witness: the landing page at `/` and the 404 at `/bogus`, both with an
empty route table. -/
theorem C7_no_route_witness :
    handle_routes extFixture reqRoot cfg0 = Except.error (Response.new landingHtml) ∧
    handle_routes extFixture reqMiss cfg0 =
      Except.error (errorResponse 404
        (strBytes "404. The requested URL was not found on this server.")) :=
  ⟨(C7_no_route extFixture reqRoot cfg0 rfl).1 rfl,
   (C7_no_route extFixture reqMiss cfg0 rfl).2 (by decide)⟩

/-- C4: decoding the bytes produced by encoding any valid cache value yields a
cache value structurally equal to it in all five fields. -/
theorem C4_codec_roundtrip (v : CacheValue) (h : validCacheValue v = true) :
    decodeCacheValue (encodeCacheValue v) = some v :=
  decodeCacheValue_encodeCacheValue v h

/-- C4 witness: the round trip at the sample envelope `cv0`. -/
theorem C4_codec_roundtrip_witness :
    validCacheValue cv0 = true ∧ decodeCacheValue (encodeCacheValue cv0) = some cv0 :=
  ⟨by decide, C4_codec_roundtrip cv0 (by decide)⟩

/-- C5: the stored validity equals the `Cache-Control: max-age` value when the
header chain produces an integer that is non-negative and fits in 32 bits, and
equals `default_cache_validity` in every other case. -/
theorem C5_validity_from_max_age (ext : Externals) (response : Response)
    (proxy_config : ProxyConfig) :
    (∀ v : Int,
      ((headerGet response.headers (strBytes "cache-control")).bind
        headerValueToStr).bind ext.parseMaxAge = some v →
      ((0 ≤ v ∧ v < 2 ^ 32 →
        validity_from_response ext response proxy_config = v.toNat) ∧
       (¬(0 ≤ v ∧ v < 2 ^ 32) →
        validity_from_response ext response proxy_config =
          proxy_config.default_cache_validity))) ∧
    (((headerGet response.headers (strBytes "cache-control")).bind
        headerValueToStr).bind ext.parseMaxAge = none →
      validity_from_response ext response proxy_config =
        proxy_config.default_cache_validity) := by
  constructor
  · intro v hv
    constructor
    · intro hr
      unfold validity_from_response u32TryFromInt
      rw [hv]
      simp only [Option.some_bind]
      rw [if_pos hr]
      rfl
    · intro hr
      unfold validity_from_response u32TryFromInt
      rw [hv]
      simp only [Option.some_bind]
      rw [if_neg hr]
      rfl
  · intro h0
    unfold validity_from_response
    rw [h0]
    rfl

/-- C5 witness: `Cache-Control: max-age=300` stores validity 300. -/
theorem C5_validity_from_max_age_witness :
    ((headerGet respMaxAge.headers (strBytes "cache-control")).bind
      headerValueToStr).bind extMaxAge.parseMaxAge = some 300 ∧
    validity_from_response extMaxAge respMaxAge cfg0 = 300 :=
  ⟨by decide,
    ((C5_validity_from_max_age extMaxAge respMaxAge cfg0).1 300 (by decide)).1 (by decide)⟩

/-- C6: a request whose path equals the reload, clear-cache or status path
short-circuits with the corresponding response — checked in that order —
independent of the routes, the origin, and the rest of the store. -/
theorem C6_admin_endpoints (ext : Externals) (client : Request → Except Unit Response)
    (req : Request) (proxy_config : ProxyConfig) (db : Db) (now : Int) :
    (req.uri.path = proxy_config.reload_config_url_path →
      on_request ext client req proxy_config db now =
        Response.new (strBytes "Proxy config reload scheduled.")) ∧
    (req.uri.path ≠ proxy_config.reload_config_url_path →
      req.uri.path = proxy_config.clear_cache_url_path →
      on_request ext client req proxy_config db now =
        Response.new (strBytes (match db.clear with
          | Except.error _ => "Cache clearing failed."
          | Except.ok _ => "Cache cleared."))) ∧
    (req.uri.path ≠ proxy_config.reload_config_url_path →
      req.uri.path ≠ proxy_config.clear_cache_url_path →
      req.uri.path = proxy_config.status_url_path →
      on_request ext client req proxy_config db now =
        Response.new (strBytes "Proxy is ready.")) := by
  refine ⟨fun h1 => ?_, fun h1 h2 => ?_, fun h1 h2 h3 => ?_⟩
  · have e1 : handle_config_reload req proxy_config =
        Except.error (Response.new (strBytes "Proxy config reload scheduled.")) := by
      unfold handle_config_reload
      rw [if_pos h1]
    simp [on_request, apply_request_middlewares, e1, Bind.bind, Except.bind]
  · have e1 : handle_config_reload req proxy_config = Except.ok req := by
      unfold handle_config_reload
      rw [if_neg h1]
    cases hc : db.clear with
    | error e =>
      have e2 : handle_clear_cache req proxy_config db =
          Except.error (Response.new (strBytes "Cache clearing failed.")) := by
        unfold handle_clear_cache
        rw [if_pos h2, hc]
      simp [on_request, apply_request_middlewares, e1, e2, hc, Bind.bind, Except.bind]
    | ok u =>
      have e2 : handle_clear_cache req proxy_config db =
          Except.error (Response.new (strBytes "Cache cleared.")) := by
        unfold handle_clear_cache
        rw [if_pos h2, hc]
      simp [on_request, apply_request_middlewares, e1, e2, hc, Bind.bind, Except.bind]
  · have e1 : handle_config_reload req proxy_config = Except.ok req := by
      unfold handle_config_reload
      rw [if_neg h1]
    have e2 : handle_clear_cache req proxy_config db = Except.ok req := by
      unfold handle_clear_cache
      rw [if_neg h2]
    have e3 : handle_status req proxy_config =
        Except.error (Response.new (strBytes "Proxy is ready.")) := by
      unfold handle_status
      rw [if_pos h3]
    simp [on_request, apply_request_middlewares, e1, e2, e3, Bind.bind, Except.bind]

/-- C6 witness: the three admin endpoints of the default configuration. -/
theorem C6_admin_endpoints_witness :
    on_request extFixture clientFail reqReload cfg0 dbEmpty 0 =
      Response.new (strBytes "Proxy config reload scheduled.") ∧
    on_request extFixture clientFail reqClear cfg0 dbEmpty 0 =
      Response.new (strBytes "Cache cleared.") ∧
    on_request extFixture clientFail reqStatus cfg0 dbEmpty 0 =
      Response.new (strBytes "Proxy is ready.") :=
  ⟨(C6_admin_endpoints extFixture clientFail reqReload cfg0 dbEmpty 0).1 rfl,
   (C6_admin_endpoints extFixture clientFail reqClear cfg0 dbEmpty 0).2.1
     (by decide) rfl,
   (C6_admin_endpoints extFixture clientFail reqStatus cfg0 dbEmpty 0).2.2
     (by decide) (by decide) rfl⟩

/-- C8: for a 2xx origin response being cached, the response delivered to the
client is the client copy of the fork, whatever the serializer and the store
do: encode or insert failures never alter it. -/
theorem C8_insert_failure_invisible (ext : Externals)
    (client : Request → Except Unit Response) (req : Request)
    (proxy_config : ProxyConfig) (db : Db) (now : Int) (response : Response)
    (hok : client req = Except.ok response)
    (h2xx : validate_response response = true)
    (hcache : proxy_config.cache_enabled = true) :
    send_request_and_handle_response ext client req proxy_config db now =
      (fork_response response).1 := by
  simp only [send_request_and_handle_response, clone_request, hok, h2xx, hcache,
    Bool.not_true, Bool.false_eq_true, if_false, cache_response]
  split
  · rfl
  · split <;> rfl

/-- C8 witness: with a successful origin and caching enabled the client
receives the forked copy of `resp0`. -/
theorem C8_insert_failure_invisible_witness :
    validate_response resp0 = true ∧ cfgCache.cache_enabled = true ∧
    send_request_and_handle_response extFixture clientOk req0 cfgCache dbEmpty 7 =
      (fork_response resp0).1 :=
  ⟨by decide, rfl,
    C8_insert_failure_invisible extFixture clientOk req0 cfgCache dbEmpty 7 resp0
      rfl (by decide) rfl⟩

/-- C10: when the clear-cache path matches and the store's clear fails, the
pipeline short-circuits with HTTP status 200 and body
"Cache clearing failed." — the failure shows only in the body text. -/
theorem C10_clear_cache_failure_status (ext : Externals)
    (client : Request → Except Unit Response) (req : Request)
    (proxy_config : ProxyConfig) (db : Db) (now : Int)
    (h1 : req.uri.path ≠ proxy_config.reload_config_url_path)
    (h2 : req.uri.path = proxy_config.clear_cache_url_path)
    (hclear : db.clear = Except.error ()) :
    on_request ext client req proxy_config db now =
      { status := 200, headers := [], body := strBytes "Cache clearing failed." } := by
  have e1 : handle_config_reload req proxy_config = Except.ok req := by
    unfold handle_config_reload
    rw [if_neg h1]
  have e2 : handle_clear_cache req proxy_config db =
      Except.error (Response.new (strBytes "Cache clearing failed.")) := by
    unfold handle_clear_cache
    rw [if_pos h2, hclear]
  simp [on_request, apply_request_middlewares, e1, e2, Bind.bind, Except.bind,
    Response.new]

/-- C10 witness: the failing-clear store answers 200 "Cache clearing failed."
at the clear-cache path. -/
theorem C10_clear_cache_failure_status_witness :
    dbClearFail.clear = Except.error () ∧
    on_request extFixture clientFail reqClear cfg0 dbClearFail 0 =
      { status := 200, headers := [], body := strBytes "Cache clearing failed." } :=
  ⟨rfl,
    C10_clear_cache_failure_status extFixture clientFail reqClear cfg0 dbClearFail 0
      (by decide) rfl rfl⟩

end AddonProxy
